import Mathlib

/-!
Verification of the message-framing codec in `psmovedataframe/PackedMessage.h`.

The codec wraps an opaque serializable payload (a protobuf-generated message
in the original code) in a frame `[4-byte big-endian length header | body]`.
We embed the header shallowly:

* byte buffers (`data_buffer`, i.e. `std::vector<boost::uint8_t>`, and raw
  `uint8_t*` regions) are `List Nat`, each element a byte value; wherever the
  C++ masks with `& 0xFF` the model takes `% 256`;
* the template parameter `MessageType` becomes a structure `MessageOps σ` of
  the four capabilities the framing layer calls (`ByteSize`,
  `SerializeToArray`, `ParseFromArray`, `Clear`) over an abstract payload
  state `σ`;
* the nullable `MessagePointer m_msg` becomes an `Option σ` argument;
* unsigned machine arithmetic is `Nat` with an explicit `% 2^32` / `% 2^64`
  where the C++ types wrap (the `unsigned`/`size_t` subtraction in `unpack`,
  the accumulator in `decode_header`, the byte extraction in `encode_header`);
* undefined behaviour reachable in the source (dereferencing a null
  `m_msg`, reading past the end of the buffer after the unsigned-subtraction
  underflow in `unpack`) is modelled as the `none` result.
-/

/-- `const unsigned HEADER_SIZE = 4;` -/
def HEADER_SIZE : Nat := 4

/-- Modulus of the 32-bit `unsigned` type used by the codec. -/
def U32 : Nat := 2 ^ 32

/-- Modulus of the 64-bit `size_t` type (`std::vector::size()`). -/
def U64 : Nat := 2 ^ 64

/-- Overwrite the bytes of `buf` starting at offset `off` with `bs`,
leaving the rest unchanged (an in-place write into a byte region, as done
by `SerializeToArray(&buf[off], n)`, `memset` and `encode_header`).
When `off + bs.length ≤ buf.length` the length is preserved. -/
def writeAt (buf : List Nat) (off : Nat) (bs : List Nat) : List Nat :=
  buf.take off ++ bs ++ buf.drop (off + bs.length)

/-- `std::vector::resize n`: truncate to `n` elements, or extend with
value-initialized (zero) bytes. -/
def resize (buf : List Nat) (n : Nat) : List Nat :=
  buf.take n ++ List.replicate (n - buf.length) 0

/-- The capabilities the framing layer requires of the payload type
(`MessageType` in the C++ template): compute the encoded byte length,
serialize into a byte range, parse from a byte range (returning the new
payload state and the success flag), and reset to the default state. -/
structure MessageOps (σ : Type) where
  byteSize : σ → Nat
  serializeToArray : σ → Option (List Nat)
  parseFromArray : σ → List Nat → σ × Bool
  clear : σ → σ

/-- The four bytes written by `PackedMessage::encode_header`:
`buf[i] = (value >> (24 - 8*i)) & 0xFF` with `value` a 32-bit `unsigned`. -/
def headerBytes (value : Nat) : List Nat :=
  let w := value % U32
  [w / 2 ^ 24 % 256, w / 2 ^ 16 % 256, w / 2 ^ 8 % 256, w % 256]

/-- The accumulation loop shared by both `decode_header` overloads:
`msg_size = msg_size * 256 + (buf[i] & 0xFF)` in 32-bit `unsigned`
arithmetic. -/
def decode_u32 (bytes : List Nat) : Nat :=
  bytes.foldl (fun acc b => (acc * 256 + b % 256) % U32) 0

/-- `PackedMessage::decode_header(const data_buffer&)`: return 0 when the
buffer is shorter than the header, else decode the first 4 bytes
big-endian. -/
def decode_header (buf : List Nat) : Nat :=
  if buf.length < HEADER_SIZE then 0
  else decode_u32 (buf.take HEADER_SIZE)

/-- `PackedMessage::decode_header(const boost::uint8_t*, unsigned)`: the raw
pointer-and-length overload. `buf` models the bytes accessible at the
pointer; reading header bytes beyond that region is out of bounds and
modelled as `none`. -/
def decode_header_ptr (buf : List Nat) (buf_size : Nat) : Option Nat :=
  if buf_size < HEADER_SIZE then some 0
  else if HEADER_SIZE ≤ buf.length then some (decode_u32 (buf.take HEADER_SIZE))
  else none

/-- `PackedMessage::pack(data_buffer&)`: growable-buffer pack. The incoming
buffer `buf` is resized to `HEADER_SIZE + msg_size`, the header is written,
then (for a nonempty body) the payload serializes itself into
`[HEADER_SIZE, HEADER_SIZE + msg_size)`. With a null `m_msg` it returns
`false` leaving the buffer untouched. On serialization failure the body
region is left as resized (partial writes by the external serializer are
not modelled; no claim depends on them). -/
def pack_growable {σ : Type} (ops : MessageOps σ) (msg : Option σ)
    (buf : List Nat) : Bool × List Nat :=
  match msg with
  | none => (false, buf)
  | some s =>
    let msg_size := ops.byteSize s
    let buf1 := resize buf (HEADER_SIZE + msg_size)
    let buf2 := writeAt buf1 0 (headerBytes msg_size)
    if 0 < msg_size then
      match ops.serializeToArray s with
      | some bs => (true, writeAt buf2 HEADER_SIZE bs)
      | none => (false, buf2)
    else
      (true, buf2)

/-- `PackedMessage::pack(boost::uint8_t*, int)`: fixed-buffer pack. `buf`
models the caller's memory region, `buf_size` the capacity argument.
Requires `HEADER_SIZE + msg_size < buf_size` strictly; otherwise fails
without writing. On success it first zero-fills all `buf_size` bytes
(`memset`), then writes the header and the body. -/
def pack_fixed {σ : Type} (ops : MessageOps σ) (msg : Option σ)
    (buf : List Nat) (buf_size : Nat) : Bool × List Nat :=
  match msg with
  | none => (false, buf)
  | some s =>
    let msg_size := ops.byteSize s
    if HEADER_SIZE + msg_size < buf_size then
      let buf1 := writeAt buf 0 (List.replicate buf_size 0)
      let buf2 := writeAt buf1 0 (headerBytes msg_size)
      if 0 < msg_size then
        match ops.serializeToArray s with
        | some bs => (true, writeAt buf2 HEADER_SIZE bs)
        | none => (false, buf2)
      else
        (true, buf2)
    else
      (false, buf)

/-- `PackedMessage::unpack(const data_buffer&)`. The body length is
`buf.size() - HEADER_SIZE` computed in `size_t` arithmetic, which wraps
instead of going negative: modelled as `(length + 2^64 - 4) % 2^64`.
`m_msg->Clear()` on a null handle, and the `ParseFromArray` read past the
end of the buffer that the wrapped length causes for short inputs, are
undefined behaviour: `none`. -/
def unpack_vec {σ : Type} (ops : MessageOps σ) (msg : Option σ)
    (buf : List Nat) : Option (σ × Bool) :=
  match msg with
  | none => none
  | some s =>
    let s1 := ops.clear s
    let bodyLen := (buf.length + U64 - HEADER_SIZE) % U64
    if 0 < bodyLen then
      if HEADER_SIZE + bodyLen ≤ buf.length then
        some (ops.parseFromArray s1 ((buf.drop HEADER_SIZE).take bodyLen))
      else none
    else
      some (s1, true)

/-- `PackedMessage::unpack(const boost::uint8_t*, unsigned)`: raw-pointer
overload; `buf` models the accessible bytes, `buf_size` the length
argument, and the subtraction wraps in 32-bit `unsigned` arithmetic. -/
def unpack_ptr {σ : Type} (ops : MessageOps σ) (msg : Option σ)
    (buf : List Nat) (buf_size : Nat) : Option (σ × Bool) :=
  match msg with
  | none => none
  | some s =>
    let s1 := ops.clear s
    let bodyLen := (buf_size + U32 - HEADER_SIZE) % U32
    if 0 < bodyLen then
      if HEADER_SIZE + bodyLen ≤ buf.length then
        some (ops.parseFromArray s1 ((buf.drop HEADER_SIZE).take bodyLen))
      else none
    else
      some (s1, true)

/-- A concrete well-behaved payload for witnesses: the observable state is
the list of body bytes itself; serialization is the identity and parsing
always succeeds. -/
def demoOps : MessageOps (List Nat) where
  byteSize := List.length
  serializeToArray := fun s => some s
  parseFromArray := fun _ bs => (bs, true)
  clear := fun _ => []

/-- A concrete payload whose parser always rejects, leaving the state
unchanged (for the destructive-unpack witness). -/
def rejectOps : MessageOps (List Nat) where
  byteSize := List.length
  serializeToArray := fun s => some s
  parseFromArray := fun t _ => (t, false)
  clear := fun _ => []

/-! ### Basic facts about the embedded primitives -/

theorem U32_eq : U32 = 4294967296 := by norm_num [U32]

theorem U64_eq : U64 = 18446744073709551616 := by norm_num [U64]

theorem HEADER_SIZE_eq : HEADER_SIZE = 4 := rfl

theorem headerBytes_length (v : Nat) : (headerBytes v).length = HEADER_SIZE := rfl

theorem resize_length (buf : List Nat) (n : Nat) : (resize buf n).length = n := by
  simp only [resize, List.length_append, List.length_take, List.length_replicate]
  omega

theorem writeAt_zero_exact (R H : List Nat) (hR : R.length = H.length) :
    writeAt R 0 H = H := by
  simp only [writeAt, List.take_zero, List.nil_append, Nat.zero_add]
  rw [← hR, List.drop_length, List.append_nil]

theorem drop_replicate_nat (k i : Nat) (h : i ≤ k) :
    (List.replicate k (0 : Nat)).drop i = List.replicate (k - i) 0 := by
  conv_lhs => rw [show k = i + (k - i) by omega, List.replicate_add,
    List.drop_left' (by simp)]

theorem decode_u32_headerBytes (v : Nat) (h : v < U32) : decode_u32 (headerBytes v) = v := by
  rw [U32_eq] at h
  simp only [decode_u32, headerBytes, List.foldl_cons, List.foldl_nil, U32_eq]
  norm_num
  omega

theorem decode_header_append (body : List Nat) (v : Nat) (h : v < U32) :
    decode_header (headerBytes v ++ body) = v := by
  unfold decode_header
  rw [if_neg (by rw [List.length_append, headerBytes_length]; omega),
    List.take_left' (headerBytes_length v), decode_u32_headerBytes v h]

theorem decode_header_cons (b0 b1 b2 b3 : Nat) (rest : List Nat) :
    decode_header (b0 :: b1 :: b2 :: b3 :: rest) =
      (b0 % 256) * 2 ^ 24 + (b1 % 256) * 2 ^ 16 + (b2 % 256) * 2 ^ 8 + b3 % 256 := by
  unfold decode_header
  rw [if_neg (by simp [HEADER_SIZE_eq])]
  show decode_u32 ((b0 :: b1 :: b2 :: b3 :: rest).take 4) = _
  simp only [List.take_succ_cons, List.take_zero]
  simp only [decode_u32, List.foldl_cons, List.foldl_nil, U32_eq]
  norm_num
  omega

/-! ### Characterizations of the pack operations -/

theorem writeAt_header_body (R H bs : List Nat) (hH : H.length = HEADER_SIZE)
    (hR : R.length = HEADER_SIZE + bs.length) :
    writeAt (writeAt R 0 H) HEADER_SIZE bs = H ++ bs := by
  have h1 : writeAt R 0 H = H ++ R.drop HEADER_SIZE := by
    simp only [writeAt, List.take_zero, List.nil_append, Nat.zero_add, hH]
  rw [h1]
  have hlen2 : (H ++ R.drop HEADER_SIZE).length = HEADER_SIZE + bs.length := by
    rw [List.length_append, hH, List.length_drop, hR]
    omega
  show (H ++ R.drop HEADER_SIZE).take HEADER_SIZE ++ bs ++
      (H ++ R.drop HEADER_SIZE).drop (HEADER_SIZE + bs.length) = H ++ bs
  rw [List.take_left' hH, ← hlen2, List.drop_length]
  simp

theorem pack_growable_success {σ : Type} (ops : MessageOps σ) (s : σ) (buf0 bs : List Nat)
    (hser : ops.serializeToArray s = some bs)
    (hlen : bs.length = ops.byteSize s) :
    pack_growable ops (some s) buf0 = (true, headerBytes (ops.byteSize s) ++ bs) := by
  rcases Nat.eq_zero_or_pos (ops.byteSize s) with hz | hp
  · have hbs : bs = [] := List.length_eq_zero.mp (by omega)
    simp only [pack_growable, if_neg (by omega : ¬ 0 < ops.byteSize s)]
    rw [writeAt_zero_exact _ _ (by rw [resize_length, headerBytes_length]; omega), hbs,
      List.append_nil]
  · simp only [pack_growable, if_pos hp, hser]
    rw [writeAt_header_body _ _ _ (headerBytes_length _) (by rw [resize_length]; omega)]

theorem pack_growable_success_inv {σ : Type} (ops : MessageOps σ) (s : σ)
    (buf0 out : List Nat)
    (hwf : ∀ bs, ops.serializeToArray s = some bs → bs.length = ops.byteSize s)
    (hok : pack_growable ops (some s) buf0 = (true, out)) :
    ∃ body, body.length = ops.byteSize s ∧
      out = headerBytes (ops.byteSize s) ++ body := by
  rcases Nat.eq_zero_or_pos (ops.byteSize s) with hz | hp
  · refine ⟨[], by simp [hz], ?_⟩
    simp only [pack_growable, if_neg (by omega : ¬ 0 < ops.byteSize s)] at hok
    injection hok with h1 h2
    rw [← h2, writeAt_zero_exact _ _ (by rw [resize_length, headerBytes_length]; omega)]
    simp
  · cases hser : ops.serializeToArray s with
    | none =>
      simp only [pack_growable, if_pos hp, hser] at hok
      simp at hok
    | some bs =>
      rw [pack_growable_success ops s buf0 bs hser (hwf bs hser)] at hok
      injection hok with h1 h2
      exact ⟨bs, hwf bs hser, h2.symm⟩

theorem memset_zero_eq (buf : List Nat) (buf_size : Nat) (hbuf : buf.length = buf_size) :
    writeAt buf 0 (List.replicate buf_size 0) = List.replicate buf_size 0 :=
  writeAt_zero_exact _ _ (by rw [hbuf, List.length_replicate])

theorem header_into_zeros (v buf_size : Nat) (h : HEADER_SIZE ≤ buf_size) :
    writeAt (List.replicate buf_size (0 : Nat)) 0 (headerBytes v) =
      headerBytes v ++ List.replicate (buf_size - HEADER_SIZE) 0 := by
  simp only [writeAt, List.take_zero, List.nil_append, Nat.zero_add, headerBytes_length]
  rw [drop_replicate_nat buf_size HEADER_SIZE h]

theorem body_into_zeros (v buf_size : Nat) (bs : List Nat) (hlen : bs.length = v)
    (h : HEADER_SIZE + v ≤ buf_size) :
    writeAt (headerBytes v ++ List.replicate (buf_size - HEADER_SIZE) 0) HEADER_SIZE bs =
      headerBytes v ++ bs ++ List.replicate (buf_size - HEADER_SIZE - v) 0 := by
  show (headerBytes v ++ List.replicate (buf_size - HEADER_SIZE) 0).take HEADER_SIZE ++ bs ++
      (headerBytes v ++ List.replicate (buf_size - HEADER_SIZE) 0).drop
        (HEADER_SIZE + bs.length) = _
  rw [List.take_left' (headerBytes_length _), hlen,
    ← List.drop_drop, List.drop_left' (headerBytes_length _),
    drop_replicate_nat _ _ (by omega)]

theorem pack_fixed_success {σ : Type} (ops : MessageOps σ) (s : σ)
    (buf : List Nat) (buf_size : Nat) (bs : List Nat)
    (hser : ops.serializeToArray s = some bs)
    (hlen : bs.length = ops.byteSize s)
    (hbuf : buf.length = buf_size)
    (hcap : HEADER_SIZE + ops.byteSize s < buf_size) :
    pack_fixed ops (some s) buf buf_size =
      (true, headerBytes (ops.byteSize s) ++ bs ++
        List.replicate (buf_size - HEADER_SIZE - ops.byteSize s) 0) := by
  rcases Nat.eq_zero_or_pos (ops.byteSize s) with hz | hp
  · have hbs : bs = [] := List.length_eq_zero.mp (by omega)
    simp only [pack_fixed, if_pos hcap, if_neg (by omega : ¬ 0 < ops.byteSize s)]
    rw [memset_zero_eq buf buf_size hbuf, header_into_zeros _ _ (by omega), hbs]
    simp [hz]
  · simp only [pack_fixed, if_pos hcap, if_pos hp, hser]
    rw [memset_zero_eq buf buf_size hbuf, header_into_zeros _ _ (by omega),
      body_into_zeros _ _ bs hlen (by omega)]

theorem pack_fixed_success_inv {σ : Type} (ops : MessageOps σ) (s : σ)
    (buf out : List Nat) (buf_size : Nat)
    (hwf : ∀ bs, ops.serializeToArray s = some bs → bs.length = ops.byteSize s)
    (hbuf : buf.length = buf_size)
    (hok : pack_fixed ops (some s) buf buf_size = (true, out)) :
    HEADER_SIZE + ops.byteSize s < buf_size ∧
    ∃ body, body.length = ops.byteSize s ∧
      out = headerBytes (ops.byteSize s) ++ body ++
        List.replicate (buf_size - HEADER_SIZE - ops.byteSize s) 0 := by
  by_cases hcap : HEADER_SIZE + ops.byteSize s < buf_size
  · refine ⟨hcap, ?_⟩
    rcases Nat.eq_zero_or_pos (ops.byteSize s) with hz | hp
    · refine ⟨[], by simp [hz], ?_⟩
      simp only [pack_fixed, if_pos hcap, if_neg (by omega : ¬ 0 < ops.byteSize s)] at hok
      injection hok with h1 h2
      rw [← h2, memset_zero_eq buf buf_size hbuf, header_into_zeros _ _ (by omega)]
      simp [hz]
    · cases hser : ops.serializeToArray s with
      | none =>
        simp only [pack_fixed, if_pos hcap, if_pos hp, hser] at hok
        simp at hok
      | some bs =>
        rw [pack_fixed_success ops s buf buf_size bs hser (hwf bs hser) hbuf hcap] at hok
        injection hok with h1 h2
        exact ⟨bs, hwf bs hser, h2.symm⟩
  · simp only [pack_fixed, if_neg hcap] at hok
    simp at hok

/-! ### Characterizations of the unpack operation -/

theorem unpack_vec_header_only {σ : Type} (ops : MessageOps σ) (s : σ) (H : List Nat)
    (hH : H.length = HEADER_SIZE) :
    unpack_vec ops (some s) H = some (ops.clear s, true) := by
  have hm : (H.length + U64 - HEADER_SIZE) % U64 = 0 := by
    rw [hH, HEADER_SIZE_eq, U64_eq]
  simp only [unpack_vec, hm]
  try rw [if_neg (by omega : ¬ (0:Nat) < 0)]

theorem unpack_vec_append {σ : Type} (ops : MessageOps σ) (s : σ) (H body : List Nat)
    (hH : H.length = HEADER_SIZE) (hpos : 0 < body.length) (hlt : body.length < U32) :
    unpack_vec ops (some s) (H ++ body) =
      some (ops.parseFromArray (ops.clear s) body) := by
  have h1 : (H ++ body).length = HEADER_SIZE + body.length := by
    rw [List.length_append, hH]
  have hm : ((H ++ body).length + U64 - HEADER_SIZE) % U64 = body.length := by
    rw [h1, HEADER_SIZE_eq, U64_eq]
    rw [U32_eq] at hlt
    omega
  simp only [unpack_vec, hm]
  rw [if_pos hpos, if_pos (le_of_eq h1.symm), List.drop_left' hH, List.take_length]

/-! ### The claims -/

/-- C1: for a payload whose serializer and parser are mutually inverse
(parsing the serialized bytes from the cleared state restores the state, and
clearing a payload whose encoding is empty preserves it), a successful
growable-buffer pack followed by unpack of that exact buffer yields the
original payload state, for every encoded length including 0. -/
theorem growable_roundtrip_restores_state {σ : Type} (ops : MessageOps σ) (s : σ)
    (buf0 bs : List Nat)
    (hser : ops.serializeToArray s = some bs)
    (hlen : bs.length = ops.byteSize s)
    (hsz : ops.byteSize s < U32)
    (hinv : ops.parseFromArray (ops.clear s) bs = (s, true))
    (hclear : ops.byteSize s = 0 → ops.clear s = s) :
    (pack_growable ops (some s) buf0).1 = true ∧
      unpack_vec ops (some s) (pack_growable ops (some s) buf0).2 = some (s, true) := by
  rw [pack_growable_success ops s buf0 bs hser hlen]
  refine ⟨rfl, ?_⟩
  show unpack_vec ops (some s) (headerBytes (ops.byteSize s) ++ bs) = some (s, true)
  rcases Nat.eq_zero_or_pos (ops.byteSize s) with hz | hp
  · have hbs : bs = [] := List.length_eq_zero.mp (by omega)
    rw [hbs, List.append_nil, unpack_vec_header_only ops s _ (headerBytes_length _),
      hclear hz]
  · rw [unpack_vec_append ops s _ bs (headerBytes_length _) (by omega) (by omega), hinv]

/-- Witness for C1 at two concrete payloads: body `[1,2,3]` (length 3) and
the empty body (length 0). -/
theorem growable_roundtrip_restores_state_witness :
    ((pack_growable demoOps (some [1, 2, 3]) []).1 = true ∧
      unpack_vec demoOps (some [1, 2, 3]) (pack_growable demoOps (some [1, 2, 3]) []).2 =
        some ([1, 2, 3], true)) ∧
    ((pack_growable demoOps (some ([] : List Nat)) []).1 = true ∧
      unpack_vec demoOps (some ([] : List Nat))
        (pack_growable demoOps (some ([] : List Nat)) []).2 = some ([], true)) :=
  ⟨growable_roundtrip_restores_state demoOps [1, 2, 3] [] [1, 2, 3] rfl rfl (by decide)
      rfl (by decide),
    growable_roundtrip_restores_state demoOps [] [] [] rfl rfl (by decide) rfl
      (fun _ => rfl)⟩

/-- C2: every successful growable-buffer pack produces a buffer of length
exactly `HEADER_SIZE` plus the encoded length, and `decode_header` on that
buffer returns exactly `length - HEADER_SIZE`. -/
theorem growable_pack_header_exact {σ : Type} (ops : MessageOps σ) (s : σ)
    (buf0 out : List Nat)
    (hwf : ∀ bs, ops.serializeToArray s = some bs → bs.length = ops.byteSize s)
    (hsz : ops.byteSize s < U32)
    (hok : pack_growable ops (some s) buf0 = (true, out)) :
    out.length = HEADER_SIZE + ops.byteSize s ∧
      decode_header out = out.length - HEADER_SIZE := by
  obtain ⟨body, hbl, hout⟩ := pack_growable_success_inv ops s buf0 out hwf hok
  subst hout
  constructor
  · rw [List.length_append, headerBytes_length, hbl]
  · rw [decode_header_append body _ hsz, List.length_append, headerBytes_length, hbl]
    omega

/-- Witness for C2 at the concrete 3-byte payload. -/
theorem growable_pack_header_exact_witness :
    ([0, 0, 0, 3, 1, 2, 3] : List Nat).length = HEADER_SIZE + demoOps.byteSize [1, 2, 3] ∧
      decode_header [0, 0, 0, 3, 1, 2, 3] =
        ([0, 0, 0, 3, 1, 2, 3] : List Nat).length - HEADER_SIZE :=
  growable_pack_header_exact demoOps [1, 2, 3] [] [0, 0, 0, 3, 1, 2, 3]
    (fun bs h => by injection h with h2; rw [← h2]; rfl) (by decide) (by decide)

/-- C3 evaluation: for inputs shorter than `HEADER_SIZE`, `decode_header`
does return 0, but `unpack` does not treat them as a zero-length body: the
unsigned subtraction `buf.size() - HEADER_SIZE` underflows to a huge value
and the payload parse is attempted past the end of the buffer (undefined
behaviour, modelled `none`) instead of reading no body bytes and returning
`true`. -/
theorem unpack_short_input_underflow_eval :
    decode_header [9] = 0 ∧ decode_header_ptr [9] 1 = some 0 ∧
    decode_header ([] : List Nat) = 0 ∧
    unpack_vec demoOps (some [3]) [9] = none ∧
    unpack_ptr demoOps (some [3]) [9] 1 = none ∧
    unpack_vec demoOps (some [3]) [] = none ∧
    unpack_ptr demoOps (some [3]) [] 0 = none := by
  decide

/-- C4: `unpack` clears the payload before parsing, so whenever the
payload parser rejects the body bytes (and leaves the state it was given
unchanged on failure, the collaborator contract), the payload is observed
in its reset state after the failing `unpack`, in both overloads. -/
theorem unpack_parse_failure_leaves_reset {σ : Type} (ops : MessageOps σ) (s s₁ s₂ : σ)
    (buf : List Nat) (n : Nat)
    (hfail : ∀ t bs, (ops.parseFromArray t bs).2 = false → (ops.parseFromArray t bs).1 = t) :
    (unpack_vec ops (some s) buf = some (s₁, false) → s₁ = ops.clear s) ∧
    (unpack_ptr ops (some s) buf n = some (s₂, false) → s₂ = ops.clear s) := by
  constructor
  · intro h
    simp only [unpack_vec] at h
    by_cases h1 : 0 < (buf.length + U64 - HEADER_SIZE) % U64
    · rw [if_pos h1] at h
      by_cases h2 : HEADER_SIZE + (buf.length + U64 - HEADER_SIZE) % U64 ≤ buf.length
      · rw [if_pos h2] at h
        have h3 := Option.some.inj h
        have h4 : (ops.parseFromArray (ops.clear s)
            ((buf.drop HEADER_SIZE).take ((buf.length + U64 - HEADER_SIZE) % U64))).2 =
              false := by rw [h3]
        have h5 := hfail _ _ h4
        rw [h3] at h5
        exact h5
      · rw [if_neg h2] at h
        exact absurd h (by simp)
    · rw [if_neg h1] at h
      have h3 := Option.some.inj h
      simp at h3
  · intro h
    simp only [unpack_ptr] at h
    by_cases h1 : 0 < (n + U32 - HEADER_SIZE) % U32
    · rw [if_pos h1] at h
      by_cases h2 : HEADER_SIZE + (n + U32 - HEADER_SIZE) % U32 ≤ buf.length
      · rw [if_pos h2] at h
        have h3 := Option.some.inj h
        have h4 : (ops.parseFromArray (ops.clear s)
            ((buf.drop HEADER_SIZE).take ((n + U32 - HEADER_SIZE) % U32))).2 = false := by
          rw [h3]
        have h5 := hfail _ _ h4
        rw [h3] at h5
        exact h5
      · rw [if_neg h2] at h
        exact absurd h (by simp)
    · rw [if_neg h1] at h
      have h3 := Option.some.inj h
      simp at h3

/-- Witness for C4: a frame whose body the rejecting parser refuses leaves
the payload in the reset (empty) state. -/
theorem unpack_parse_failure_leaves_reset_witness : ([] : List Nat) = rejectOps.clear [5] :=
  (unpack_parse_failure_leaves_reset rejectOps [5] [] [] [0, 0, 0, 1, 9] 5
    (fun t bs h => rfl)).1 (by decide)

/-- C5: the fixed-buffer pack succeeds only under the strict capacity check
`HEADER_SIZE + msg_size < buf_size`; whenever the capacity is at most
`HEADER_SIZE + msg_size` it returns `false` and leaves every byte of the
caller's buffer unchanged. -/
theorem fixed_pack_capacity_rejection {σ : Type} (ops : MessageOps σ) (s : σ)
    (buf : List Nat) (buf_size : Nat) :
    (buf_size ≤ HEADER_SIZE + ops.byteSize s →
      pack_fixed ops (some s) buf buf_size = (false, buf)) ∧
    ((pack_fixed ops (some s) buf buf_size).1 = true →
      HEADER_SIZE + ops.byteSize s < buf_size) := by
  constructor
  · intro h
    simp only [pack_fixed]
    rw [if_neg (by omega)]
  · intro h
    by_contra hc
    simp only [pack_fixed] at h
    rw [if_neg hc] at h
    exact absurd h (by simp)

/-- Witness for C5: capacity 7 is rejected for a 3-byte payload
(7 ≤ 4 + 3), with the destination bytes untouched. -/
theorem fixed_pack_capacity_rejection_witness :
    pack_fixed demoOps (some [1, 2, 3]) [9, 9, 9, 9, 9, 9, 9] 7 =
      (false, [9, 9, 9, 9, 9, 9, 9]) :=
  (fixed_pack_capacity_rejection demoOps [1, 2, 3] [9, 9, 9, 9, 9, 9, 9] 7).1 (by decide)

/-- C6: after a successful fixed-buffer pack with capacity `buf_size`, every
byte of the destination at an index in `[HEADER_SIZE + msg_size, buf_size)`
is zero. -/
theorem fixed_pack_zero_fill_tail {σ : Type} (ops : MessageOps σ) (s : σ)
    (buf out : List Nat) (buf_size : Nat)
    (hwf : ∀ bs, ops.serializeToArray s = some bs → bs.length = ops.byteSize s)
    (hbuf : buf.length = buf_size)
    (hok : pack_fixed ops (some s) buf buf_size = (true, out)) :
    ∀ i, HEADER_SIZE + ops.byteSize s ≤ i → i < buf_size → out[i]? = some 0 := by
  obtain ⟨hcap, body, hbl, hout⟩ := pack_fixed_success_inv ops s buf out buf_size hwf hbuf hok
  subst hout
  intro i hi1 hi2
  have hpre : (headerBytes (ops.byteSize s) ++ body).length =
      HEADER_SIZE + ops.byteSize s := by
    rw [List.length_append, headerBytes_length, hbl]
  rw [List.getElem?_append_right (by rw [hpre]; omega), List.getElem?_replicate,
    if_pos (by rw [hpre]; omega)]

/-- Witness for C6: packing the 3-byte payload into a 9-byte buffer leaves
the byte at index 7 (inside the zero-filled tail) equal to 0. -/
theorem fixed_pack_zero_fill_tail_witness : ([0, 0, 0, 3, 1, 2, 3, 0, 0] : List Nat)[7]? =
    some 0 :=
  fixed_pack_zero_fill_tail demoOps [1, 2, 3] [7, 7, 7, 7, 7, 7, 7, 7, 7]
    [0, 0, 0, 3, 1, 2, 3, 0, 0] 9 (fun bs h => by injection h with h2; rw [← h2]; rfl) rfl
    (by decide) 7 (by decide) (by decide)

/-- C7: the two `decode_header` overloads agree on the same bytes with the
same length: both return 0 when the length is below `HEADER_SIZE` and
otherwise the big-endian value of the first 4 bytes. -/
theorem decode_header_forms_agree (buf : List Nat) :
    decode_header_ptr buf buf.length = some (decode_header buf) ∧
    (buf.length < HEADER_SIZE → decode_header buf = 0) ∧
    (∀ b0 b1 b2 b3 rest, buf = b0 :: b1 :: b2 :: b3 :: rest →
      decode_header buf =
        (b0 % 256) * 2 ^ 24 + (b1 % 256) * 2 ^ 16 + (b2 % 256) * 2 ^ 8 + b3 % 256) := by
  refine ⟨?_, ?_, ?_⟩
  · unfold decode_header decode_header_ptr
    by_cases h : buf.length < HEADER_SIZE
    · rw [if_pos h, if_pos h]
    · rw [if_neg h, if_neg h, if_pos (by omega)]
  · intro h
    unfold decode_header
    rw [if_pos h]
  · intro b0 b1 b2 b3 rest hbuf
    subst hbuf
    exact decode_header_cons b0 b1 b2 b3 rest

/-- Witness for C7 at the concrete frame bytes `{0x00,0x00,0x01,0x00}`. -/
theorem decode_header_forms_agree_witness :
    decode_header_ptr [0, 0, 1, 0] (([0, 0, 1, 0] : List Nat).length) =
      some (decode_header [0, 0, 1, 0]) ∧
    decode_header [0, 0, 1, 0] =
      (0 % 256) * 2 ^ 24 + (0 % 256) * 2 ^ 16 + (1 % 256) * 2 ^ 8 + 0 % 256 :=
  ⟨(decode_header_forms_agree [0, 0, 1, 0]).1,
    (decode_header_forms_agree [0, 0, 1, 0]).2.2 0 0 1 0 [] rfl⟩

/-- C8: `unpack` never inspects the 4 header bytes: two equal-length inputs
agreeing from offset `HEADER_SIZE` onward produce the same result and the
same payload state, in both overloads. -/
theorem unpack_ignores_header_bytes {σ : Type} (ops : MessageOps σ) (msg : Option σ)
    (a b : List Nat) (n : Nat)
    (hlen : a.length = b.length)
    (htail : a.drop HEADER_SIZE = b.drop HEADER_SIZE) :
    unpack_vec ops msg a = unpack_vec ops msg b ∧
    unpack_ptr ops msg a n = unpack_ptr ops msg b n := by
  cases msg with
  | none => exact ⟨rfl, rfl⟩
  | some s =>
    constructor
    · simp only [unpack_vec, hlen, htail]
    · simp only [unpack_ptr, hlen, htail]

/-- Witness for C8: two 5-byte frames with different header bytes and the
same body byte unpack identically. -/
theorem unpack_ignores_header_bytes_witness :
    unpack_vec demoOps (some []) [9, 9, 9, 9, 5] = unpack_vec demoOps (some []) [0, 0, 0, 1, 5] ∧
    unpack_ptr demoOps (some []) [9, 9, 9, 9, 5] 5 =
      unpack_ptr demoOps (some []) [0, 0, 0, 1, 5] 5 :=
  unpack_ignores_header_bytes demoOps (some []) [9, 9, 9, 9, 5] [0, 0, 0, 1, 5] 5 rfl rfl

/-- C9: both pack overloads guard against a missing payload and return
`false` leaving the buffer untouched, while both unpack overloads perform no
such guard and immediately dereference the null payload handle (undefined
behaviour, modelled `none`), never a graceful `false` return. -/
theorem unpack_no_null_guard {σ : Type} (ops : MessageOps σ) (buf : List Nat) (n : Nat) :
    pack_growable ops none buf = (false, buf) ∧
    pack_fixed ops none buf n = (false, buf) ∧
    unpack_vec ops none buf = none ∧
    unpack_ptr ops none buf n = none :=
  ⟨rfl, rfl, rfl, rfl⟩

/-- C10: the concrete scenarios: a payload of 3 bytes `{1,2,3}` packs to the
7-byte frame `{0,0,0,3,1,2,3}` (whatever the incoming buffer contents),
`decode_header` of that frame is 3, and `decode_header` of any buffer whose
first four bytes are `{0,0,1,0}` is 256. -/
theorem concrete_pack_and_decode :
    (∀ buf0 : List Nat,
      pack_growable demoOps (some [1, 2, 3]) buf0 = (true, [0, 0, 0, 3, 1, 2, 3])) ∧
    decode_header [0, 0, 0, 3, 1, 2, 3] = 3 ∧
    (∀ rest : List Nat, decode_header (0 :: 0 :: 1 :: 0 :: rest) = 256) := by
  refine ⟨?_, by decide, ?_⟩
  · intro buf0
    exact (pack_growable_success demoOps [1, 2, 3] buf0 [1, 2, 3] rfl rfl).trans (by decide)
  · intro rest
    exact (decode_header_cons 0 0 1 0 rest).trans (by norm_num)
